import Mathlib

/-!
Verification of pydantic-ssm-settings against its specification.

The development shallowly embeds the code of `pydantic_ssm_settings/source.py`
and `pydantic_ssm_settings/settings.py`:

* `load_from_ssm` embeds `AwsSsmSettingsSource.load_from_ssm`; the network is
  represented by the list of pages the paginator would yield, where a page is
  either its list of parameters or a `ClientError` raised while fetching it.
* `field_is_complex_pair` embeds `AwsSsmSettingsSource._field_is_complex`
  (together with the host framework helpers it delegates to).
* `prepare_field_value` embeds `AwsSsmSettingsSource.prepare_field_value`.
* `get_field_value` embeds `AwsSsmSettingsSource.get_field_value`.
* `settings_customise_sources` embeds
  `AwsSsmSourceConfig.settings_customise_sources`.

Python dictionaries are represented as association lists where insertion
prepends, so `List.lookup` returns the most recently inserted binding for a
key, exactly the visible behaviour of `dict` assignment and `dict.get`.
-/

/-- Python exceptions the embedded code can raise: `ValueError` (also the
JSON decode error, a subclass) and `AttributeError`. -/
inductive PyErr where
  | valueError (msg : String)
  | attributeError (msg : String)
deriving DecidableEq

/-- A `pathlib.Path`: whether it is absolute, plus its segments. -/
structure PyPath where
  absolute : Bool
  segments : List String
deriving DecidableEq

/-- Embeds `Path.relative_to(base)` followed by `.as_posix()`: the remaining
segments when `base` is an initial portion of `p` with the same absoluteness,
`none` when Python raises `ValueError`. -/
def relativeTo (p base : PyPath) : Option (List String) :=
  if p.absolute == base.absolute && base.segments.isPrefixOf p.segments then
    some (p.segments.drop base.segments.length)
  else none

/-- A parameter returned by `get_parameters_by_path`: its full name and value. -/
structure SsmParam where
  name : PyPath
  value : String
deriving DecidableEq

/-- One page yielded by the paginator: either its parameters, or a
`ClientError` raised while fetching that page. -/
abbrev SsmPage := Except Unit (List SsmParam)

/-- The flat parameter mapping `output` built by `load_from_ssm`
(a Python dict, represented as a prepend-association list). -/
abbrev SsmMap := List (String × String)

/-- The key under which `load_from_ssm` stores a parameter: its name made
relative to the given path, joined with `/`, lowercased unless
`case_sensitive`.  Total helper used to state theorems; `load_from_ssm`
itself raises when `relative_to` fails. -/
def paramKey (pfx : PyPath) (cs : Bool) (p : SsmParam) : String :=
  let key := String.intercalate "/" ((relativeTo p.name pfx).getD [])
  if cs then key else key.toLower

/-- The body of the inner loop of `load_from_ssm`:
`output[key if case_sensitive else key.lower()] = parameter["Value"]`.
`Path.relative_to` raises `ValueError` when the name is not under the
path, and that exception is not caught (only `ClientError` is). -/
def ssmInsertParam (pfx : PyPath) (cs : Bool) (m : SsmMap) (p : SsmParam) :
    Except PyErr SsmMap :=
  match relativeTo p.name pfx with
  | none => Except.error (PyErr.valueError "is not in the subpath")
  | some segs =>
    let key := String.intercalate "/" segs
    Except.ok ((if cs then key else key.toLower, p.value) :: m)

/-- The inner `for parameter in page["Parameters"]` loop of `load_from_ssm`. -/
def ssmFoldParams (pfx : PyPath) (cs : Bool) : List SsmParam → SsmMap → Except PyErr SsmMap
  | [], m => Except.ok m
  | p :: ps, m =>
    match ssmInsertParam pfx cs m p with
    | Except.error e => Except.error e
    | Except.ok m2 => ssmFoldParams pfx cs ps m2

/-- The outer `for page in response_iterator` loop of `load_from_ssm`:
a `ClientError` while fetching a page is caught (and logged), ending the
loop with the output accumulated so far. -/
def ssmFoldPages (pfx : PyPath) (cs : Bool) : List SsmPage → SsmMap → Except PyErr SsmMap
  | [], m => Except.ok m
  | Except.error _ :: _, m => Except.ok m
  | Except.ok ps :: rest, m =>
    match ssmFoldParams pfx cs ps m with
    | Except.error e => Except.error e
    | Except.ok m2 => ssmFoldPages pfx cs rest m2

/-- Embeds `AwsSsmSettingsSource.load_from_ssm` (which the constructor
`__init__` invokes eagerly): raise `ValueError` unless the path is absolute,
then accumulate the paginated parameters into `output`, catching
`ClientError`. `pages` stands for what the network would return. -/
def load_from_ssm (pfx : PyPath) (cs : Bool) (pages : List SsmPage) : Except PyErr SsmMap :=
  if pfx.absolute then ssmFoldPages pfx cs pages []
  else Except.error (PyErr.valueError "SSM prefix must be absolute path")

/-- The parameters the pagination loop actually processes: every parameter of
the pages strictly before the first page whose fetch raises `ClientError`. -/
def paramsUntilError : List SsmPage → List SsmParam
  | [] => []
  | Except.error _ :: _ => []
  | Except.ok ps :: rest => ps ++ paramsUntilError rest

/-- Pure characterisation of the accumulation performed by the pagination
loops: each parameter is prepended under its computed key. -/
def ssmBuild (pfx : PyPath) (cs : Bool) (ps : List SsmParam) (m : SsmMap) : SsmMap :=
  ps.foldl (fun acc p => (paramKey pfx cs p, p.value) :: acc) m

lemma ssmInsertParam_of_isSome {pfx : PyPath} {cs : Bool} {m : SsmMap} {p : SsmParam}
    (hp : (relativeTo p.name pfx).isSome = true) :
    ssmInsertParam pfx cs m p = Except.ok ((paramKey pfx cs p, p.value) :: m) := by
  obtain ⟨segs, hsegs⟩ := Option.isSome_iff_exists.mp hp
  simp [ssmInsertParam, paramKey, hsegs]

lemma ssmFoldParams_ok (pfx : PyPath) (cs : Bool) (ps : List SsmParam) (m : SsmMap)
    (h : ∀ p ∈ ps, (relativeTo p.name pfx).isSome = true) :
    ssmFoldParams pfx cs ps m = Except.ok (ssmBuild pfx cs ps m) := by
  induction ps generalizing m with
  | nil => rfl
  | cons p ps ih =>
    simp only [ssmFoldParams, ssmInsertParam_of_isSome (h p (by simp))]
    rw [ih _ (fun q hq => h q (by simp [hq]))]
    simp [ssmBuild]

lemma ssmBuild_append (pfx : PyPath) (cs : Bool) (ps qs : List SsmParam) (m : SsmMap) :
    ssmBuild pfx cs (ps ++ qs) m = ssmBuild pfx cs qs (ssmBuild pfx cs ps m) := by
  simp [ssmBuild, List.foldl_append]

lemma ssmFoldPages_ok (pfx : PyPath) (cs : Bool) (pages : List SsmPage) (m : SsmMap)
    (h : ∀ p ∈ paramsUntilError pages, (relativeTo p.name pfx).isSome = true) :
    ssmFoldPages pfx cs pages m = Except.ok (ssmBuild pfx cs (paramsUntilError pages) m) := by
  induction pages generalizing m with
  | nil => rfl
  | cons pg rest ih =>
    cases pg with
    | error u => rfl
    | ok ps =>
      have hps : ∀ p ∈ ps, (relativeTo p.name pfx).isSome = true := by
        intro p hp
        exact h p (by simp [paramsUntilError, hp])
      have hrest : ∀ p ∈ paramsUntilError rest, (relativeTo p.name pfx).isSome = true := by
        intro p hp
        exact h p (by simp [paramsUntilError, hp])
      simp only [ssmFoldPages, ssmFoldParams_ok pfx cs ps m hps]
      rw [ih _ hrest]
      simp [paramsUntilError, ssmBuild_append]

/-- Claim C4: for every non-absolute prefix, `load_from_ssm` (called by the
source constructor) raises the configuration `ValueError` immediately, and
the outcome does not depend on what the remote store would have returned,
i.e. no network call is consulted. -/
theorem load_from_ssm_relative_prefix_fails (pfx : PyPath) (cs : Bool)
    (pages pages2 : List SsmPage) (h : pfx.absolute = false) :
    load_from_ssm pfx cs pages = Except.error (PyErr.valueError "SSM prefix must be absolute path")
      ∧ load_from_ssm pfx cs pages = load_from_ssm pfx cs pages2 := by
  simp [load_from_ssm, h]

/-- Example prefix `/asdf` used by the concrete witnesses. -/
def pfx0 : PyPath := ⟨true, ["asdf"]⟩

/-- Example parameter `/asdf/a = "1"`. -/
def par0 : SsmParam := ⟨⟨true, ["asdf", "a"]⟩, "1"⟩

/-- A page with one parameter followed by a page whose fetch raises
`ClientError`. -/
def pages0 : List SsmPage := [Except.ok [par0], Except.error ()]

/-- Witness for claim C4 at the concrete relative prefix `asdf`. -/
theorem load_from_ssm_relative_prefix_fails_witness :
    load_from_ssm ⟨false, ["asdf"]⟩ true []
        = Except.error (PyErr.valueError "SSM prefix must be absolute path")
      ∧ load_from_ssm ⟨false, ["asdf"]⟩ true [] = load_from_ssm ⟨false, ["asdf"]⟩ true pages0 :=
  load_from_ssm_relative_prefix_fails ⟨false, ["asdf"]⟩ true [] pages0 rfl

/-- Claim C5 counterexample: with one parameter received before the
`ClientError`, the fetch returns the partial mapping `[("a", "1")]`,
not an empty mapping as the claim states. -/
theorem load_from_ssm_client_error_keeps_partial :
    load_from_ssm pfx0 true pages0 = Except.ok [("a", "1")]
      ∧ load_from_ssm pfx0 true pages0 ≠ Except.ok ([] : SsmMap) := by
  have h1 : load_from_ssm pfx0 true pages0 = Except.ok [("a", "1")] := by rfl
  refine ⟨h1, ?_⟩
  rw [h1]
  intro hc
  simp at hc

/-- Claim C5 (amended): a `ClientError` raised during the paginated fetch is
caught, and `load_from_ssm` returns (normally, never failing) the mapping
accumulated from the parameters processed before the error — empty when the
error precedes the first parameter. -/
theorem load_from_ssm_client_error_truncates (pfx : PyPath) (cs : Bool) (pages : List SsmPage)
    (habs : pfx.absolute = true)
    (hunder : ∀ p ∈ paramsUntilError pages, (relativeTo p.name pfx).isSome = true) :
    load_from_ssm pfx cs pages = Except.ok (ssmBuild pfx cs (paramsUntilError pages) []) := by
  rw [load_from_ssm, if_pos habs, ssmFoldPages_ok pfx cs pages [] hunder]

/-- Witness for the amended claim C5 at a concrete store with an error page. -/
theorem load_from_ssm_client_error_truncates_witness :
    load_from_ssm pfx0 true pages0 = Except.ok (ssmBuild pfx0 true (paramsUntilError pages0) []) :=
  load_from_ssm_client_error_truncates pfx0 true pages0 (by rfl) (by decide)

/-- One entry of `_extract_field_info(field, field_name)` (host framework):
the field key to report, the key to look up in the mapping, and the
`value_is_complex` flag. -/
structure FieldCand where
  fieldKey : String
  envName : String
  complex : Bool
deriving DecidableEq

/-- Embeds `AwsSsmSettingsSource.get_field_value`: iterate the candidates,
breaking at the first whose `env_name` is present in `ssm_values`; after the
loop return `(env_val, field_key, value_is_complex)` from the last iteration
executed.  With no candidate at all the loop variables are unbound and
Python raises, modelled as `none`. -/
def get_field_value (m : SsmMap) : List FieldCand → Option (Option String × String × Bool)
  | [] => none
  | c :: rest =>
    match m.lookup c.envName with
    | some v => some (some v, c.fieldKey, c.complex)
    | none =>
      match rest with
      | [] => some (none, c.fieldKey, c.complex)
      | _ :: _ => get_field_value m rest

lemma get_field_value_all_absent (m : SsmMap) (cands : List FieldCand) (h : cands ≠ [])
    (habs : ∀ c ∈ cands, m.lookup c.envName = none) :
    get_field_value m cands
      = some (none, (cands.getLast h).fieldKey, (cands.getLast h).complex) := by
  induction cands with
  | nil => exact absurd rfl h
  | cons c rest ih =>
    have hc := habs c (by simp)
    cases rest with
    | nil => simp [get_field_value, hc]
    | cons c2 r2 =>
      have hr := ih (by simp) (fun x hx => habs x (by simp [hx]))
      rw [List.getLast_cons (by simp)]
      simp only [get_field_value, hc]
      exact hr

lemma get_field_value_skip (m : SsmMap) (c d : FieldCand) (r : List FieldCand)
    (h : m.lookup c.envName = none) :
    get_field_value m (c :: d :: r) = get_field_value m (d :: r) := by
  simp only [get_field_value, h]

lemma get_field_value_first_hit (m : SsmMap) (pre : List FieldCand) (c : FieldCand)
    (post : List FieldCand) (v : String)
    (hpre : ∀ c2 ∈ pre, m.lookup c2.envName = none)
    (hc : m.lookup c.envName = some v) :
    get_field_value m (pre ++ c :: post) = some (some v, c.fieldKey, c.complex) := by
  induction pre with
  | nil => simp [get_field_value, hc]
  | cons c2 pre2 ih =>
    have h2 := hpre c2 (by simp)
    cases hpp : pre2 ++ c :: post with
    | nil => simp at hpp
    | cons d r =>
      rw [List.cons_append, hpp, get_field_value_skip m c2 d r h2, ← hpp]
      exact ih (fun x hx => hpre x (by simp [hx]))

/-- Claim C10: when every candidate key of a field is absent from the flat
parameter mapping, `get_field_value` returns (without raising) a triple whose
value is `none` and whose key is the last candidate tried; when some candidate
is present, it returns the value of the first present candidate together with
that candidate's key and flag. -/
theorem get_field_value_candidate_order (m : SsmMap) (cands : List FieldCand)
    (h : cands ≠ []) :
    ((∀ c ∈ cands, m.lookup c.envName = none) →
        get_field_value m cands
          = some (none, (cands.getLast h).fieldKey, (cands.getLast h).complex))
      ∧ (∀ pre c post v, cands = pre ++ c :: post →
          (∀ c2 ∈ pre, m.lookup c2.envName = none) →
          m.lookup c.envName = some v →
          get_field_value m cands = some (some v, c.fieldKey, c.complex)) := by
  constructor
  · exact get_field_value_all_absent m cands h
  · intro pre c post v hsplit hpre hc
    rw [hsplit]
    exact get_field_value_first_hit m pre c post v hpre hc

/-- Witness for claim C10: lookup with a hit on the second candidate, and
lookup with no candidate present. -/
theorem get_field_value_candidate_order_witness :
    get_field_value [("bar", "v1")] [⟨"foo", "foo", false⟩, ⟨"bar", "bar", true⟩]
        = some (some "v1", "bar", true)
      ∧ get_field_value [] [⟨"foo", "foo", false⟩, ⟨"bar", "bar", true⟩]
        = some (none, "bar", true) := by
  constructor
  · exact (get_field_value_candidate_order [("bar", "v1")] _ (by simp)).2
      [⟨"foo", "foo", false⟩] ⟨"bar", "bar", true⟩ [] "v1" rfl
      (by intro c2 h2; simp at h2; subst h2; rfl) rfl
  · have hall := (get_field_value_candidate_order ([] : SsmMap)
      [⟨"foo", "foo", false⟩, ⟨"bar", "bar", true⟩] (by simp)).1
      (by intro c hc; simp [List.lookup])
    simpa using hall

lemma lookup_ssmBuild_notmem (pfx : PyPath) (cs : Bool) (ps : List SsmParam) (m : SsmMap)
    (k : String) (h : k ∉ ps.map (paramKey pfx cs)) :
    (ssmBuild pfx cs ps m).lookup k = m.lookup k := by
  induction ps generalizing m with
  | nil => rfl
  | cons q rest ih =>
    have hk : k ≠ paramKey pfx cs q := by
      intro hkq
      exact h (by simp [hkq])
    have : (ssmBuild pfx cs rest ((paramKey pfx cs q, q.value) :: m)).lookup k
        = ((paramKey pfx cs q, q.value) :: m).lookup k :=
      ih _ (fun hmem => h (by simp [hmem]))
    rw [ssmBuild] at this ⊢
    simp only [List.foldl_cons] at this ⊢
    rw [show (List.foldl (fun acc p => (paramKey pfx cs p, p.value) :: acc)
        ((paramKey pfx cs q, q.value) :: m) rest) = ssmBuild pfx cs rest
        ((paramKey pfx cs q, q.value) :: m) from rfl] at this ⊢
    rw [this]
    simp [List.lookup, beq_eq_false_iff_ne.mpr hk]

lemma lookup_ssmBuild_mem (pfx : PyPath) (cs : Bool) (ps : List SsmParam) (m : SsmMap)
    (p : SsmParam) (hp : p ∈ ps) (hdist : (ps.map (paramKey pfx cs)).Nodup) :
    (ssmBuild pfx cs ps m).lookup (paramKey pfx cs p) = some p.value := by
  induction ps generalizing m with
  | nil => simp at hp
  | cons q rest ih =>
    simp only [List.map_cons, List.nodup_cons] at hdist
    rcases List.mem_cons.mp hp with hq | hmem
    · subst hq
      have hb : ssmBuild pfx cs (p :: rest) m
          = ssmBuild pfx cs rest ((paramKey pfx cs p, p.value) :: m) := by
        simp [ssmBuild]
      rw [hb, lookup_ssmBuild_notmem pfx cs rest _ _ hdist.1]
      simp [List.lookup]
    · have hb : ssmBuild pfx cs (q :: rest) m
          = ssmBuild pfx cs rest ((paramKey pfx cs q, q.value) :: m) := by
        simp [ssmBuild]
      rw [hb]
      exact ih ((paramKey pfx cs q, q.value) :: m) hmem hdist.2

lemma paramsUntilError_all_ok (pagesP : List (List SsmParam)) :
    paramsUntilError (pagesP.map Except.ok) = pagesP.flatten := by
  induction pagesP with
  | nil => rfl
  | cons ps rest ih => simp [paramsUntilError, ih]

/-- Claim C6: for every parameter returned by the paginated fetch under an
absolute prefix, the fetch result maps its name made relative to the prefix
(lowercased when `case_sensitive` is false) to that parameter's value —
stated for a well-formed store whose computed keys are pairwise distinct. -/
theorem load_from_ssm_maps_relative_keys (pfx : PyPath) (cs : Bool)
    (pagesP : List (List SsmParam))
    (habs : pfx.absolute = true)
    (hunder : ∀ p ∈ pagesP.flatten, (relativeTo p.name pfx).isSome = true)
    (hdist : (pagesP.flatten.map (paramKey pfx cs)).Nodup)
    (p : SsmParam) (hp : p ∈ pagesP.flatten) :
    ∃ m, load_from_ssm pfx cs (pagesP.map Except.ok) = Except.ok m
      ∧ m.lookup (paramKey pfx cs p) = some p.value := by
  refine ⟨ssmBuild pfx cs pagesP.flatten [], ?_, ?_⟩
  · have h := load_from_ssm_client_error_truncates pfx cs (pagesP.map Except.ok) habs
      (by rw [paramsUntilError_all_ok]; exact hunder)
    rwa [paramsUntilError_all_ok] at h
  · exact lookup_ssmBuild_mem pfx cs pagesP.flatten [] p hp hdist

/-- Example parameter `/asdf/b = "2"`. -/
def par1 : SsmParam := ⟨⟨true, ["asdf", "b"]⟩, "2"⟩

/-- Witness for claim C6 at a two-page store. -/
theorem load_from_ssm_maps_relative_keys_witness :
    ∃ m, load_from_ssm pfx0 true [Except.ok [par0], Except.ok [par1]] = Except.ok m
      ∧ m.lookup (paramKey pfx0 true par1) = some par1.value := by
  have h := load_from_ssm_maps_relative_keys pfx0 true [[par0], [par1]] (by rfl)
    (by decide) (by decide) par1 (by decide)
  simpa using h

/-- Claim C9: under a valid absolute prefix an empty store yields an empty
flat parameter mapping without raising, and consequently every field lookup
over that mapping yields no value (`none`), the field being absent for this
source. -/
theorem empty_store_fields_absent (pfx : PyPath) (cs : Bool) (pages : List SsmPage)
    (habs : pfx.absolute = true)
    (hempty : ∀ pg ∈ pages, pg = Except.ok ([] : List SsmParam))
    (cands : List FieldCand) (h : cands ≠ []) :
    load_from_ssm pfx cs pages = Except.ok ([] : SsmMap)
      ∧ get_field_value [] cands
          = some (none, (cands.getLast h).fieldKey, (cands.getLast h).complex) := by
  constructor
  · have hparams : paramsUntilError pages = [] := by
      induction pages with
      | nil => rfl
      | cons pg rest ih =>
        rw [hempty pg (by simp)]
        simp only [paramsUntilError, List.nil_append]
        exact ih (fun x hx => hempty x (by simp [hx]))
    have h2 := load_from_ssm_client_error_truncates pfx cs pages habs
      (by rw [hparams]; intro p hp; simp at hp)
    rw [hparams] at h2
    exact h2
  · exact get_field_value_all_absent [] cands h (by intro c hc; simp [List.lookup])

/-- Witness for claim C9 at the prefix `/asdf`, no pages, one candidate. -/
theorem empty_store_fields_absent_witness :
    load_from_ssm pfx0 true [] = Except.ok ([] : SsmMap)
      ∧ get_field_value [] [⟨"foo", "foo", false⟩] = some (none, "foo", false) := by
  have h := empty_store_fields_absent pfx0 true [] rfl (by simp)
    [⟨"foo", "foo", false⟩] (by simp)
  simpa using h

/-- A declared field type as the classifier sees it: a scalar, a
container/object type (model, mapping, sequence, ...), or a union of types. -/
inductive Annot where
  | scalar
  | container
  | union (args : List Annot)

/-- Embeds `pydantic_settings.sources._annotation_is_complex` as used through
`self.field_is_complex`: container and object types are complex, scalars are
not, and a union is not itself complex (its origin `typing.Union` is not a
container type). -/
def annotation_is_complex : Annot → Bool
  | Annot.scalar => false
  | Annot.container => true
  | Annot.union _ => false

/-- Embeds `origin_is_union(get_origin(annotation))`. -/
def origin_is_union : Annot → Bool
  | Annot.union _ => true
  | _ => false

/-- Embeds `AwsSsmSettingsSource._union_is_complex`: some branch of the union
is a complex annotation. -/
def union_is_complex : Annot → Bool
  | Annot.union args => args.any annotation_is_complex
  | _ => false

/-- Embeds `AwsSsmSettingsSource._field_is_complex`, returning
`(complex, allow_parse_failure)`. -/
def field_is_complex_pair (a : Annot) : Bool × Bool :=
  if annotation_is_complex a then (true, false)
  else if origin_is_union a && union_is_complex a then (true, true)
  else (false, false)

/-- Modelled from the spec: "A field is complex if its declared type is
itself a container/object type, OR if it is a union type where at least one
branch is complex." -/
def spec_complex : Annot → Bool
  | Annot.scalar => false
  | Annot.container => true
  | Annot.union [] => false
  | Annot.union (a :: rest) => spec_complex a || spec_complex (Annot.union rest)

/-- Whether no member of a union is itself a union — always true of Python
annotations, where `typing.Union` flattens nested unions. -/
def no_nested_union : Annot → Bool
  | Annot.union args => args.all (fun a => !origin_is_union a)
  | _ => true

lemma any_complex_of_flat (args : List Annot)
    (h : args.all (fun a => !origin_is_union a) = true) :
    args.any annotation_is_complex = spec_complex (Annot.union args) := by
  induction args with
  | nil => simp [spec_complex]
  | cons a rest ih =>
    simp only [List.all_cons, Bool.and_eq_true] at h
    have ha : annotation_is_complex a = spec_complex a := by
      cases a with
      | scalar => simp [annotation_is_complex, spec_complex]
      | container => simp [annotation_is_complex, spec_complex]
      | union args2 => simp [origin_is_union] at h
    simp [spec_complex, List.any_cons, ha, ih h.2]

/-- Claim C7: over flattened annotations (as Python produces), the classifier
reports `complex` exactly when the declared type is a container/object type or
a union with a complex branch, and `allow_parse_failure` exactly in the
union-complex case; a directly complex field gets `(true, false)` and a
non-complex field gets `(false, false)`. -/
theorem field_complexity_classifier (a : Annot) (hflat : no_nested_union a = true) :
    (field_is_complex_pair a).1 = spec_complex a
      ∧ ((field_is_complex_pair a).2 = true
          ↔ (origin_is_union a = true ∧ spec_complex a = true))
      ∧ (annotation_is_complex a = true → field_is_complex_pair a = (true, false))
      ∧ (spec_complex a = false → field_is_complex_pair a = (false, false)) := by
  cases a with
  | scalar =>
    simp [field_is_complex_pair, annotation_is_complex, origin_is_union, spec_complex]
  | container =>
    simp [field_is_complex_pair, annotation_is_complex, origin_is_union, spec_complex]
  | union args =>
    have key := any_complex_of_flat args (by simpa [no_nested_union] using hflat)
    cases hany : args.any annotation_is_complex with
    | true =>
      rw [hany] at key
      simp [field_is_complex_pair, annotation_is_complex, origin_is_union,
        union_is_complex, hany, ← key]
    | false =>
      rw [hany] at key
      simp [field_is_complex_pair, annotation_is_complex, origin_is_union,
        union_is_complex, hany, ← key]

/-- Witness for claim C7: a union with a complex branch classifies as
`(true, true)`, a directly complex container as `(true, false)`. -/
theorem field_complexity_classifier_witness :
    (field_is_complex_pair (Annot.union [Annot.container, Annot.scalar])).2 = true
      ∧ field_is_complex_pair Annot.container = (true, false) := by
  constructor
  · exact (field_complexity_classifier (Annot.union [Annot.container, Annot.scalar])
      (by rfl)).2.1.mpr ⟨rfl, by simp [spec_complex, annotation_is_complex]⟩
  · exact (field_complexity_classifier Annot.container (by rfl)).2.2.1 rfl

/-- A decoded JSON value (the possible results of `json.loads`). -/
inductive Json where
  | null
  | bool (b : Bool)
  | num (n : Int)
  | str (s : String)
  | arr (elements : List Json)
  | obj (fields : List (String × Json))

/-- The opening brace character. -/
def lbraceChar : Char := Char.ofNat 123

/-- The closing brace character. -/
def rbraceChar : Char := Char.ofNat 125

/-- JSON whitespace. -/
def isJsonWs (c : Char) : Bool := c = ' ' || c = '\n' || c = '\t' || c = '\r'

/-- Drop leading JSON whitespace. -/
def skipWs : List Char → List Char
  | [] => []
  | c :: cs => if isJsonWs c then skipWs cs else c :: cs

/-- Parse the remainder of a JSON string literal (after the opening quote),
handling the common escapes. -/
def parseStrChars : Nat → List Char → Option (List Char × List Char)
  | 0, _ => none
  | _ + 1, [] => none
  | fuel + 1, c :: cs =>
    if c = '"' then some ([], cs)
    else if c = '\\' then
      match cs with
      | [] => none
      | d :: cs2 =>
        let esc : Option Char :=
          if d = '"' then some '"'
          else if d = '\\' then some '\\'
          else if d = '/' then some '/'
          else if d = 'n' then some '\n'
          else if d = 't' then some '\t'
          else none
        match esc with
        | some e =>
          match parseStrChars fuel cs2 with
          | some (r, rest) => some (e :: r, rest)
          | none => none
        | none => none
    else
      match parseStrChars fuel cs with
      | some (r, rest) => some (c :: r, rest)
      | none => none

/-- Digits to the natural number they denote. -/
def digitsToNat (ds : List Char) : Nat :=
  ds.foldl (fun n c => 10 * n + (c.toNat - 48)) 0

/-- What a parsing step returns: a value, an object member list, or an array
element list. -/
inductive JsonPart where
  | val (j : Json)
  | members (ms : List (String × Json))
  | elems (es : List Json)

/-- Parsing mode: a JSON value, the members of an object after its opening
brace, or the elements of an array after its opening bracket. -/
inductive JsonMode where
  | top
  | members
  | elems

/-- Fuel-driven recursive-descent JSON parsing, modelling `json.loads` on the
JSON fragment without floats, exponents and unicode escapes (the fragment is
irrelevant to the control flow verified here). -/
def parseStep : Nat → JsonMode → List Char → Option (JsonPart × List Char)
  | 0, _, _ => none
  | fuel + 1, JsonMode.top, input =>
    match skipWs input with
    | [] => none
    | c :: cs =>
      if c = '"' then
        match parseStrChars fuel cs with
        | some (r, rest) => some (JsonPart.val (Json.str (String.mk r)), rest)
        | none => none
      else if c = lbraceChar then
        match skipWs cs with
        | [] => none
        | d :: ds =>
          if d = rbraceChar then some (JsonPart.val (Json.obj []), ds)
          else
            match parseStep fuel JsonMode.members (d :: ds) with
            | some (JsonPart.members ms, rest) => some (JsonPart.val (Json.obj ms), rest)
            | _ => none
      else if c = '[' then
        match skipWs cs with
        | [] => none
        | d :: ds =>
          if d = ']' then some (JsonPart.val (Json.arr []), ds)
          else
            match parseStep fuel JsonMode.elems (d :: ds) with
            | some (JsonPart.elems es, rest) => some (JsonPart.val (Json.arr es), rest)
            | _ => none
      else if c = 't' then
        match cs with
        | 'r' :: 'u' :: 'e' :: rest => some (JsonPart.val (Json.bool true), rest)
        | _ => none
      else if c = 'f' then
        match cs with
        | 'a' :: 'l' :: 's' :: 'e' :: rest => some (JsonPart.val (Json.bool false), rest)
        | _ => none
      else if c = 'n' then
        match cs with
        | 'u' :: 'l' :: 'l' :: rest => some (JsonPart.val Json.null, rest)
        | _ => none
      else if c = '-' then
        match cs with
        | [] => none
        | d :: ds =>
          if d.isDigit then
            match (d :: ds).span Char.isDigit with
            | (digs, rest) =>
              some (JsonPart.val (Json.num (-(Int.ofNat (digitsToNat digs)))), rest)
          else none
      else if c.isDigit then
        match (c :: cs).span Char.isDigit with
        | (digs, rest) => some (JsonPart.val (Json.num (Int.ofNat (digitsToNat digs))), rest)
      else none
  | fuel + 1, JsonMode.members, input =>
    match skipWs input with
    | [] => none
    | c :: cs =>
      if c = '"' then
        match parseStrChars fuel cs with
        | some (k, rest) =>
          match skipWs rest with
          | ':' :: rest2 =>
            match parseStep fuel JsonMode.top rest2 with
            | some (JsonPart.val v, rest3) =>
              match skipWs rest3 with
              | [] => none
              | e :: rest4 =>
                if e = ',' then
                  match parseStep fuel JsonMode.members rest4 with
                  | some (JsonPart.members ms, rest5) =>
                    some (JsonPart.members ((String.mk k, v) :: ms), rest5)
                  | _ => none
                else if e = rbraceChar then
                  some (JsonPart.members [(String.mk k, v)], rest4)
                else none
            | _ => none
          | _ => none
        | none => none
      else none
  | fuel + 1, JsonMode.elems, input =>
    match parseStep fuel JsonMode.top input with
    | some (JsonPart.val v, rest) =>
      match skipWs rest with
      | ',' :: rest2 =>
        match parseStep fuel JsonMode.elems rest2 with
        | some (JsonPart.elems es, rest3) => some (JsonPart.elems (v :: es), rest3)
        | _ => none
      | ']' :: rest2 => some (JsonPart.elems [v], rest2)
      | _ => none
    | _ => none

/-- Embeds `self.decode_complex_value(field_name, field, value)`, which is
`json.loads(value)`: the decoded value, or a `ValueError` message. -/
def json_loads (s : String) : Except String Json :=
  match parseStep (2 * s.length + 2) JsonMode.top s.data with
  | some (JsonPart.val j, rest) =>
    if skipWs rest = [] then Except.ok j else Except.error "invalid JSON"
  | _ => Except.error "invalid JSON"

/-- A per-field value as `prepare_field_value` returns it: the raw string
from the store, or a JSON-decoded value. -/
inductive PyValue where
  | str (s : String)
  | json (j : Json)

/-- Embeds `AwsSsmSettingsSource.prepare_field_value`.  The code calls
`self.explode_ssm_values(...)` on both paths that need nested overrides, but
no such attribute exists (the class defines `_explode_ssm_values`, with a
different signature), so reaching either call raises `AttributeError`:

* complex field, no direct value: `explode_ssm_values` is called at once;
* complex field, direct value decoding to a dict: it is called while
  evaluating the arguments of `deep_update`.

On decode failure the raw string is kept when `allow_parse_failure` holds
(the subsequent `isinstance(value, dict)` is false for a string), otherwise
the decode `ValueError` is re-raised.  A non-complex field returns the value
when present, and `None` (absent) otherwise. -/
def prepare_field_value (a : Annot) (value : Option String) (value_is_complex : Bool) :
    Except PyErr (Option PyValue) :=
  if (field_is_complex_pair a).1 || value_is_complex then
    match value with
    | none => Except.error (PyErr.attributeError "explode_ssm_values")
    | some v =>
      match json_loads v with
      | Except.error e =>
        if (field_is_complex_pair a).2 then Except.ok (some (PyValue.str v))
        else Except.error (PyErr.valueError e)
      | Except.ok (Json.obj _) => Except.error (PyErr.attributeError "explode_ssm_values")
      | Except.ok j => Except.ok (some (PyValue.json j))
  else
    match value with
    | some v => Except.ok (some (PyValue.str v))
    | none => Except.ok none

/-- Claim C1 (code bug): on the spec scenario - a nested-object field whose
direct value decodes to the mapping `\x7b"bar": "xyz123"\x7d` - the code does
not deep-merge: it raises `AttributeError` because `explode_ssm_values` does
not exist on the class. -/
theorem prepare_field_value_dict_hits_missing_explode :
    prepare_field_value Annot.container (some "\x7b\"bar\": \"xyz123\"\x7d") false
      = Except.error (PyErr.attributeError "explode_ssm_values") := by
  rfl

/-- Claim C2 (code bug): a complex field with no direct value never gets an
exploded nested structure: the code raises `AttributeError` at the
`explode_ssm_values` call. -/
theorem prepare_field_value_none_hits_missing_explode :
    prepare_field_value Annot.container none false
      = Except.error (PyErr.attributeError "explode_ssm_values") := by
  rfl

/-- Claim C8: for a complex field with a direct value whose JSON decode
fails, the decode error is re-raised exactly when `allow_parse_failure` is
false, and the raw string is kept when it is true. -/
theorem prepare_field_value_decode_failure (a : Annot) (v : String) (vc : Bool) (e : String)
    (hc : (field_is_complex_pair a).1 = true)
    (hp : json_loads v = Except.error e) :
    (prepare_field_value a (some v) vc = Except.error (PyErr.valueError e)
        ↔ (field_is_complex_pair a).2 = false)
      ∧ ((field_is_complex_pair a).2 = true →
          prepare_field_value a (some v) vc = Except.ok (some (PyValue.str v))) := by
  cases hpf : (field_is_complex_pair a).2 with
  | true => simp [prepare_field_value, hc, hp, hpf]
  | false => simp [prepare_field_value, hc, hp, hpf]

/-- Witness for claim C8: the union field keeps the raw undecodable string,
the plainly complex field re-raises the decode error. -/
theorem prepare_field_value_decode_failure_witness :
    prepare_field_value (Annot.union [Annot.container, Annot.scalar]) (some "nope") false
        = Except.ok (some (PyValue.str "nope"))
      ∧ prepare_field_value Annot.container (some "nope") false
        = Except.error (PyErr.valueError "invalid JSON") := by
  constructor
  · exact (prepare_field_value_decode_failure (Annot.union [Annot.container, Annot.scalar])
      "nope" false "invalid JSON" (by rfl) (by rfl)).2 (by rfl)
  · exact (prepare_field_value_decode_failure Annot.container
      "nope" false "invalid JSON" (by rfl) (by rfl)).1.mpr (by rfl)

/-- A settings source seen through the chain interface: for each field name,
the value it yields, or `none` when the field is absent from that source. -/
def SettingsSource : Type := String → Option String

/-- Embeds `AwsSsmSourceConfig.settings_customise_sources` from
`settings.py`: the returned chain is
`(init_settings, env_settings, dotenv_settings, ssm_settings,
file_secret_settings)`. -/
def settings_customise_sources
    (init_settings env_settings dotenv_settings ssm_settings file_secret_settings :
      SettingsSource) : List SettingsSource :=
  [init_settings, env_settings, dotenv_settings, ssm_settings, file_secret_settings]

/-- Modelled from the spec: the host framework resolves each field to the
value of the first source in chain order where the field is present. -/
def resolve_chain : List SettingsSource → String → Option String
  | [], _ => none
  | s :: rest, f =>
    match s f with
    | some v => some v
    | none => resolve_chain rest f

/-- Claim C3: the chain is ordered init, env, dotenv, remote-parameter,
secrets-file, and each field resolves to the first source in that order where
it is present; in particular a manually-supplied (init) value always wins
over a remote parameter. -/
theorem settings_chain_first_source_wins
    (i e d s sec : SettingsSource) (f : String) :
    (∀ v, i f = some v
        → resolve_chain (settings_customise_sources i e d s sec) f = some v)
      ∧ (∀ v, i f = none → e f = some v
        → resolve_chain (settings_customise_sources i e d s sec) f = some v)
      ∧ (∀ v, i f = none → e f = none → d f = some v
        → resolve_chain (settings_customise_sources i e d s sec) f = some v)
      ∧ (∀ v, i f = none → e f = none → d f = none → s f = some v
        → resolve_chain (settings_customise_sources i e d s sec) f = some v)
      ∧ (∀ v, i f = none → e f = none → d f = none → s f = none → sec f = some v
        → resolve_chain (settings_customise_sources i e d s sec) f = some v)
      ∧ (i f = none → e f = none → d f = none → s f = none → sec f = none
        → resolve_chain (settings_customise_sources i e d s sec) f = none) := by
  refine ⟨?_, ?_, ?_, ?_, ?_, ?_⟩ <;> intros <;>
    simp_all [settings_customise_sources, resolve_chain]

/-- Witness for claim C3: the init source supplies `foo`, so its value wins
over the value the remote-parameter source holds for `foo`. -/
theorem settings_chain_first_source_wins_witness :
    resolve_chain
        (settings_customise_sources
          (fun _ => some "manually set") (fun _ => none) (fun _ => none)
          (fun _ => some "xyz123") (fun _ => none)) "foo"
      = some "manually set" :=
  (settings_chain_first_source_wins
    (fun _ => some "manually set") (fun _ => none) (fun _ => none)
    (fun _ => some "xyz123") (fun _ => none) "foo").1 "manually set" rfl
